import Mathlib

/-!
Shallow embedding of `scripts/generate_typescript_protocol.py`, a transcoder
that renders a StarCraft II protocol descriptor (type catalog, three event
dispatch tables, eight named type-ID constants) as TypeScript source text.
The Python module has two rendering paths: `convert_typeinfos_to_typescript`
(console mode, a sequence of `print` calls) and
`generate_typescript_protocol_file` (file mode, building one string).
Both are embedded here as pure functions of an explicit descriptor record.
-/

set_option maxRecDepth 100000

/-- Decimal digits of `n`, most significant first, onto `acc`; structural
fuel so the definition reduces in the kernel.  Embeds Python `str(int)` for
non-negative values. -/
def natCharsAux : Nat → Nat → List Char → List Char
  | 0, _, acc => acc
  | fuel + 1, n, acc =>
    let d := Char.ofNat (48 + n % 10)
    if n < 10 then d :: acc else natCharsAux fuel (n / 10) (d :: acc)

/-- Decimal rendering of a natural number, as Python `str` produces it. -/
def natStr (n : Nat) : String := ⟨natCharsAux (n + 1) n []⟩

/-- Decimal rendering of an integer, as Python `str` produces it. -/
def intStr (i : Int) : String :=
  if i < 0 then "-" ++ natStr i.natAbs else natStr i.natAbs

/-- A digit character. -/
def isDig (c : Char) : Bool := 48 ≤ c.toNat && c.toNat ≤ 57

/-- Value of a digit list read left to right. -/
def listValAux (a : Nat) : List Char → Nat
  | [] => a
  | c :: cs => listValAux (a * 10 + (c.toNat - 48)) cs

/-- Parse a non-empty all-digit character list as a natural number. -/
def parseNatChars (cs : List Char) : Option Nat :=
  if cs ≠ [] ∧ cs.all isDig then some (listValAux 0 cs) else Option.none

/- Python values that occur in protocol `typeinfos` shapes.  Lists of
values and key/value pair lists are separate mutual inductives so that the
repr functions below are plainly recursive. -/
mutual
inductive PyVal where
  | intv (n : Int)
  | strv (s : String)
  | nonev
  | listv (xs : PyValList)
  | tuplev (xs : PyValList)
  | dictv (ps : PyPairList)
  deriving DecidableEq
inductive PyValList where
  | nil
  | cons (x : PyVal) (xs : PyValList)
  deriving DecidableEq
inductive PyPairList where
  | nil
  | cons (k : PyVal) (v : PyVal) (ps : PyPairList)
  deriving DecidableEq
end

/-- The backslash character. -/
def backsl : Char := Char.ofNat 92

/-- The double-quote character. -/
def dquote : Char := Char.ofNat 34

/-- The single-quote character. -/
def squote : Char := Char.ofNat 39

/-- Lowercase hexadecimal digit. -/
def hexDig (n : Nat) : Char :=
  if n < 10 then Char.ofNat (48 + n) else Char.ofNat (87 + n)

/-- How Python `repr` escapes one character of a string delimited by
quote character `q`: backslashes and the delimiter are backslash-escaped,
newline/carriage-return/tab use their mnemonic escapes, other ASCII
control characters use `\xhh`, everything else is kept as is. -/
def escChar (q c : Char) : List Char :=
  if c = backsl then [backsl, backsl]
  else if c = q then [backsl, q]
  else if c.toNat = 10 then [backsl, Char.ofNat 110]
  else if c.toNat = 13 then [backsl, Char.ofNat 114]
  else if c.toNat = 9 then [backsl, Char.ofNat 116]
  else if c.toNat < 32 || c.toNat = 127 then
    [backsl, Char.ofNat 120, hexDig (c.toNat / 16), hexDig (c.toNat % 16)]
  else [c]

/-- The quote character Python `repr` picks for a string: single quote,
unless the content contains a single quote and no double quote. -/
def pyQuoteChar (s : String) : Char :=
  if (s.data.any (fun c => c = squote)) && !(s.data.any (fun c => c = dquote))
  then dquote else squote

/-- Python `repr` of a string: delimited by `pyQuoteChar`, content escaped
by `escChar`. -/
def pyStrRepr (s : String) : String :=
  ⟨pyQuoteChar s :: (s.data.map (escChar (pyQuoteChar s))).flatten ++ [pyQuoteChar s]⟩

mutual
/-- Python `str`/`repr` of a value: decimal integers, `repr` strings,
`None`, bracketed lists, parenthesized tuples (with the one-element
trailing comma), braced dicts. -/
def pyRepr : PyVal → String
  | .intv n => intStr n
  | .strv s => pyStrRepr s
  | .nonev => "None"
  | .listv xs => "[" ++ pyReprList xs ++ "]"
  | .tuplev (.cons x .nil) => "(" ++ pyRepr x ++ ",)"
  | .tuplev xs => "(" ++ pyReprList xs ++ ")"
  | .dictv ps => "\x7b" ++ pyReprPairs ps ++ "\x7d"
/-- Comma-space separated `repr`s of a value list. -/
def pyReprList : PyValList → String
  | .nil => ""
  | .cons x .nil => pyRepr x
  | .cons x rest => pyRepr x ++ ", " ++ pyReprList rest
/-- Comma-space separated `key: value` `repr`s of a pair list. -/
def pyReprPairs : PyPairList → String
  | .nil => ""
  | .cons k v .nil => pyRepr k ++ ": " ++ pyRepr v
  | .cons k v rest => pyRepr k ++ ": " ++ pyRepr v ++ ", " ++ pyReprPairs rest
end

/-- The expression `str(type_data).replace` from the script: a global
single-quote to double-quote substitution, applied characterwise (the
pattern is a single character). -/
def replaceQuotes (s : String) : String :=
  ⟨s.data.map (fun c => if c = squote then dquote else c)⟩

/-- Python `str` of a shape value.  On a top-level string, `str` is the
identity — the raw string, quotes unadded and newlines unescaped; on every
other value (`int`, `None`, lists, tuples, dicts — whose nested strings go
through `repr`) `str` agrees with `repr`. -/
def pyStr : PyVal → String
  | .strv s => s
  | v => pyRepr v

/-- The variable `formatted_data` of the script: the stringified shape
with every single quote replaced by a double quote. -/
def formattedData (v : PyVal) : String := replaceQuotes (pyStr v)

/-- The protocol descriptor: the module-level inputs of the script
(`typeinfos`, the three event-type dicts in insertion order, and the eight
named type-ID constants), made explicit parameters. -/
structure Descriptor where
  typeinfos : List (String × PyVal)
  game_event_types : List (Nat × Nat × String)
  message_event_types : List (Nat × Nat × String)
  tracker_event_types : List (Nat × Nat × String)
  game_eventid_typeid : Nat
  message_eventid_typeid : Nat
  tracker_eventid_typeid : Nat
  svaruint32_typeid : Nat
  replay_userid_typeid : Nat
  replay_header_typeid : Nat
  game_details_typeid : Nat
  replay_initdata_typeid : Nat

/-- One catalog entry line:
`  { type: "<name>", data: <formatted_data> }, // <i>` . -/
def catalogEntryLine (i : Nat) (e : String × PyVal) : String :=
  "  \x7b type: \"" ++ e.1 ++ "\", data: " ++ formattedData e.2
    ++ " \x7d, // " ++ natStr i

/-- The enumerated catalog entry lines, in input order. -/
def catalogLines (ts : List (String × PyVal)) : List String :=
  ts.enum.map (fun p => catalogEntryLine p.1 p.2)

/-- One dispatch-table entry line:
`  <eventId>: { typeId: <typeId>, name: "<name>" },` . -/
def eventEntryLine (p : Nat × Nat × String) : String :=
  "  " ++ natStr p.1 ++ ": \x7b typeId: " ++ natStr p.2.1
    ++ ", name: \"" ++ p.2.2 ++ "\" \x7d,"

/-- The dispatch-table entry lines, in dict insertion order. -/
def tableLines (tbl : List (Nat × Nat × String)) : List String :=
  tbl.map eventEntryLine

/-- Concatenation of a list of strings. -/
def strJoin : List String → String
  | [] => ""
  | s :: rest => s ++ strJoin rest

/-- Join lines, terminating each with a newline, the way consecutive
`print` calls (or `+=` of `\n`-terminated chunks) build the output. -/
def joinNl (ls : List String) : String := strJoin (ls.map (fun l => l ++ "\n"))

/-- The eight constant declaration lines shared by both output modes. -/
def constLines (d : Descriptor) : List String :=
  ["// Important protocol type IDs",
   "export const GAME_EVENTID_TYPEID = " ++ natStr d.game_eventid_typeid ++ ";",
   "export const MESSAGE_EVENTID_TYPEID = " ++ natStr d.message_eventid_typeid ++ ";",
   "export const TRACKER_EVENTID_TYPEID = " ++ natStr d.tracker_eventid_typeid ++ ";",
   "export const SVARUINT32_TYPEID = " ++ natStr d.svaruint32_typeid ++ ";",
   "export const REPLAY_USERID_TYPEID = " ++ natStr d.replay_userid_typeid ++ ";",
   "export const REPLAY_HEADER_TYPEID = " ++ natStr d.replay_header_typeid ++ ";",
   "export const GAME_DETAILS_TYPEID = " ++ natStr d.game_details_typeid ++ ";",
   "export const REPLAY_INITDATA_TYPEID = " ++ natStr d.replay_initdata_typeid ++ ";"]

/-- The fixed console-mode lines up to and including the opening of the
catalog array literal. -/
def consoleHeadLines : List String :=
  ["// Generated TypeScript protocol definitions",
   "// Auto-generated from protocol typeinfos",
   "",
   "export interface ProtocolTypeInfo \x7b",
   "  type: string;",
   "  data: any[];",
   "\x7d",
   "",
   "export const protocolTypeinfos: ProtocolTypeInfo[] = ["]

/-- Console-mode lines closing the catalog and opening the game table. -/
def consoleGameHeadLines : List String :=
  ["];", "",
   "export const gameEventTypes: Record<number, \x7b typeId: number; name: string \x7d> = \x7b"]

/-- Console-mode lines closing the game table and opening the message
table. -/
def consoleMessageHeadLines : List String :=
  ["\x7d;", "",
   "export const messageEventTypes: Record<number, \x7b typeId: number; name: string \x7d> = \x7b"]

/-- Console-mode lines closing the message table and opening the tracker
table. -/
def consoleTrackerHeadLines : List String :=
  ["\x7d;", "",
   "export const trackerEventTypes: Record<number, \x7b typeId: number; name: string \x7d> = \x7b"]

/-- The lines printed by `convert_typeinfos_to_typescript`, in order. -/
def consoleLines (d : Descriptor) : List String :=
  consoleHeadLines
  ++ catalogLines d.typeinfos
  ++ consoleGameHeadLines
  ++ tableLines d.game_event_types
  ++ consoleMessageHeadLines
  ++ tableLines d.message_event_types
  ++ consoleTrackerHeadLines
  ++ tableLines d.tracker_event_types
  ++ ["\x7d;", ""]
  ++ constLines d

/-- Console-mode rendering: the text that `convert_typeinfos_to_typescript`
writes to standard output (each `print` terminates its line). -/
def convert_typeinfos_to_typescript (d : Descriptor) : String :=
  joinNl (consoleLines d)

/-- The fixed leading chunk of the file-mode output, up to and including
the opening of the `protocolTypeinfos` array literal. -/
def fileHeader : String :=
  "// Auto-generated TypeScript protocol definitions\n// Generated from StarCraft II protocol specification\n\nexport interface ProtocolTypeInfo \x7b\n  type: string;\n  data: any[];\n\x7d\n\nexport interface EventType \x7b\n  typeId: number;\n  name: string;\n\x7d\n\n// Protocol type information array\nexport const protocolTypeinfos: ProtocolTypeInfo[] = [\n"

/-- The fixed trailing chunk of the file-mode output: the four helper
lookup functions, each indexing and returning `T | undefined`. -/
def fileTrailer : String :=
  ";\n\n// Helper functions for protocol parsing\nexport function getTypeInfo(typeId: number): ProtocolTypeInfo | undefined \x7b\n  return protocolTypeinfos[typeId];\n\x7d\n\nexport function getGameEventType(eventId: number): EventType | undefined \x7b\n  return gameEventTypes[eventId];\n\x7d\n\nexport function getMessageEventType(eventId: number): EventType | undefined \x7b\n  return messageEventTypes[eventId];\n\x7d\n\nexport function getTrackerEventType(eventId: number): EventType | undefined \x7b\n  return trackerEventTypes[eventId];\n\x7d\n"

/-- File-mode rendering: the string `typescript_content` returned by
`generate_typescript_protocol_file`, assembled chunk by chunk exactly as
the script's `+=` sequence does. -/
def generate_typescript_protocol_file (d : Descriptor) : String :=
  fileHeader
  ++ strJoin ((catalogLines d.typeinfos).map (fun l => l ++ "\n"))
  ++ "];\n\n"
  ++ "export const gameEventTypes: Record<number, EventType> = \x7b\n"
  ++ strJoin ((tableLines d.game_event_types).map (fun l => l ++ "\n"))
  ++ "\x7d;\n\n"
  ++ "export const messageEventTypes: Record<number, EventType> = \x7b\n"
  ++ strJoin ((tableLines d.message_event_types).map (fun l => l ++ "\n"))
  ++ "\x7d;\n\n"
  ++ "export const trackerEventTypes: Record<number, EventType> = \x7b\n"
  ++ strJoin ((tableLines d.tracker_event_types).map (fun l => l ++ "\n"))
  ++ "\x7d;\n\n"
  ++ "// Important protocol type IDs\nexport const GAME_EVENTID_TYPEID = "
  ++ natStr d.game_eventid_typeid
  ++ ";\nexport const MESSAGE_EVENTID_TYPEID = "
  ++ natStr d.message_eventid_typeid
  ++ ";\nexport const TRACKER_EVENTID_TYPEID = "
  ++ natStr d.tracker_eventid_typeid
  ++ ";\nexport const SVARUINT32_TYPEID = "
  ++ natStr d.svaruint32_typeid
  ++ ";\nexport const REPLAY_USERID_TYPEID = "
  ++ natStr d.replay_userid_typeid
  ++ ";\nexport const REPLAY_HEADER_TYPEID = "
  ++ natStr d.replay_header_typeid
  ++ ";\nexport const GAME_DETAILS_TYPEID = "
  ++ natStr d.game_details_typeid
  ++ ";\nexport const REPLAY_INITDATA_TYPEID = "
  ++ natStr d.replay_initdata_typeid
  ++ fileTrailer

/-! Lemmas about decimal rendering and parsing. -/

/-- Specification companion of `natCharsAux`: the value that prepending the
digits of `n` contributes in front of an accumulator value `a`. -/
def shiftVal : Nat → Nat → Nat → Nat
  | 0, a, _ => a
  | fuel + 1, a, n =>
    if n < 10 then a * 10 + n else shiftVal fuel a (n / 10) * 10 + n % 10

theorem natCharsAux_succ (f n : Nat) (acc : List Char) :
    natCharsAux (f + 1) n acc =
      if n < 10 then Char.ofNat (48 + n % 10) :: acc
      else natCharsAux f (n / 10) (Char.ofNat (48 + n % 10) :: acc) := rfl

theorem shiftVal_succ (f a n : Nat) :
    shiftVal (f + 1) a n =
      if n < 10 then a * 10 + n else shiftVal f a (n / 10) * 10 + n % 10 := rfl

theorem listValAux_cons (a : Nat) (c : Char) (cs : List Char) :
    listValAux a (c :: cs) = listValAux (a * 10 + (c.toNat - 48)) cs := rfl

theorem digitChar_isDig (r : Nat) (h : r < 10) :
    isDig (Char.ofNat (48 + r)) = true := by
  interval_cases r <;> decide

theorem digitChar_toNat (r : Nat) (h : r < 10) :
    (Char.ofNat (48 + r)).toNat = 48 + r := by
  interval_cases r <;> decide

theorem div10_lt_of_lt {n fuel : Nat} (h : n < fuel + 1) (h10 : ¬ n < 10) :
    n / 10 < fuel := by
  have h1 : n / 10 < n := Nat.div_lt_self (by omega) (by omega)
  omega

theorem natCharsAux_digits :
    ∀ fuel n acc, n < fuel → (∀ c ∈ acc, isDig c = true) →
      ∀ c ∈ natCharsAux fuel n acc, isDig c = true := by
  intro fuel
  induction fuel with
  | zero => intro n acc h; omega
  | succ f ih =>
    intro n acc h hacc c
    rw [natCharsAux_succ]
    by_cases h10 : n < 10
    · rw [if_pos h10]
      intro hc
      rcases List.mem_cons.mp hc with h1 | h2
      · subst h1; exact digitChar_isDig _ (Nat.mod_lt _ (by omega))
      · exact hacc c h2
    · rw [if_neg h10]
      refine ih (n / 10) _ (div10_lt_of_lt h h10) ?_ c
      intro x hx
      rcases List.mem_cons.mp hx with h1 | h2
      · subst h1; exact digitChar_isDig _ (Nat.mod_lt _ (by omega))
      · exact hacc x h2

theorem natCharsAux_ne_nil :
    ∀ fuel n acc, n < fuel → natCharsAux fuel n acc ≠ [] := by
  intro fuel
  induction fuel with
  | zero => intro n acc h; omega
  | succ f ih =>
    intro n acc h
    rw [natCharsAux_succ]
    by_cases h10 : n < 10
    · rw [if_pos h10]; simp
    · rw [if_neg h10]
      exact ih (n / 10) _ (div10_lt_of_lt h h10)

theorem listValAux_natCharsAux :
    ∀ fuel n acc a, n < fuel →
      listValAux a (natCharsAux fuel n acc) = listValAux (shiftVal fuel a n) acc := by
  intro fuel
  induction fuel with
  | zero => intro n acc a h; omega
  | succ f ih =>
    intro n acc a h
    rw [natCharsAux_succ, shiftVal_succ]
    by_cases h10 : n < 10
    · rw [if_pos h10, if_pos h10]
      rw [listValAux_cons]
      rw [digitChar_toNat (n % 10) (Nat.mod_lt n (by omega))]
      have h2 : n % 10 = n := Nat.mod_eq_of_lt h10
      rw [h2]
      congr 1
      omega
    · rw [if_neg h10, if_neg h10]
      rw [ih (n / 10) _ a (div10_lt_of_lt h h10)]
      rw [listValAux_cons]
      rw [digitChar_toNat (n % 10) (Nat.mod_lt n (by omega))]
      congr 1
      omega

theorem shiftVal_zero :
    ∀ fuel n, n < fuel → shiftVal fuel 0 n = n := by
  intro fuel
  induction fuel with
  | zero => intro n h; omega
  | succ f ih =>
    intro n h
    rw [shiftVal_succ]
    by_cases h10 : n < 10
    · rw [if_pos h10]; omega
    · rw [if_neg h10]
      rw [ih (n / 10) (div10_lt_of_lt h h10)]
      omega

theorem natStr_digits (n : Nat) : ∀ c ∈ (natStr n).data, isDig c = true := by
  intro c hc
  exact natCharsAux_digits (n + 1) n [] (Nat.lt_succ_self n) (by simp) c hc

theorem natStr_ne_nil (n : Nat) : (natStr n).data ≠ [] :=
  natCharsAux_ne_nil (n + 1) n [] (Nat.lt_succ_self n)

/-- Printing a natural number in decimal and parsing the digits back is the
identity. -/
theorem natStr_parse (n : Nat) : parseNatChars (natStr n).data = some n := by
  unfold parseNatChars
  rw [if_pos]
  · have h1 := listValAux_natCharsAux (n + 1) n [] 0 (Nat.lt_succ_self n)
    have h2 := shiftVal_zero (n + 1) n (Nat.lt_succ_self n)
    show some (listValAux 0 (natCharsAux (n + 1) n [])) = some n
    rw [h1, h2]
    rfl
  · refine ⟨natStr_ne_nil n, ?_⟩
    rw [List.all_eq_true]
    exact natStr_digits n

theorem isDig_ne_newline {c : Char} (h : isDig c = true) : c ≠ '\n' := by
  intro hc
  subst hc
  simp [isDig] at h

/-! A small parser used to state round-trip properties of emitted
dispatch-table entry lines. -/

/-- Consume an expected literal pattern from the front of a character
list; fails if the input does not start with the pattern. -/
def dropExpect : List Char → List Char → Option (List Char)
  | [], cs => some cs
  | _ :: _, [] => Option.none
  | p :: ps, c :: cs => if p = c then dropExpect ps cs else Option.none

theorem dropExpect_pre (p r : List Char) : dropExpect p (p ++ r) = some r := by
  induction p with
  | nil => rfl
  | cons c cs ih => simp [dropExpect, ih]

theorem dropExpect_cons_pre (c : Char) (p r : List Char) :
    dropExpect (c :: p) (c :: (p ++ r)) = some r := by
  simp only [dropExpect, if_pos rfl]
  exact dropExpect_pre p r

/-- The characters standing before an expected literal tail. -/
def takeBeforeTail (tail cs : List Char) : Option (List Char) :=
  match dropExpect tail.reverse cs.reverse with
  | some r => some r.reverse
  | Option.none => Option.none

theorem takeBeforeTail_app (tail n : List Char) :
    takeBeforeTail tail (n ++ tail) = some n := by
  unfold takeBeforeTail
  rw [List.reverse_append, dropExpect_pre]
  simp

theorem takeWhile_append_not (p : Char → Bool) :
    ∀ (l1 : List Char) (c : Char) (l2 : List Char),
      (∀ x ∈ l1, p x = true) → p c = false →
      (l1 ++ c :: l2).takeWhile p = l1 := by
  intro l1
  induction l1 with
  | nil => intro c l2 _ hc; simp [List.takeWhile_cons, hc]
  | cons a as ih =>
    intro c l2 h1 hc
    have ha : p a = true := h1 a (List.mem_cons_self a as)
    simp only [List.cons_append, List.takeWhile_cons, ha, if_pos]
    rw [ih c l2 (fun x hx => h1 x (List.mem_cons_of_mem a hx)) hc]

theorem dropWhile_append_not (p : Char → Bool) :
    ∀ (l1 : List Char) (c : Char) (l2 : List Char),
      (∀ x ∈ l1, p x = true) → p c = false →
      (l1 ++ c :: l2).dropWhile p = c :: l2 := by
  intro l1
  induction l1 with
  | nil => intro c l2 _ hc; simp [List.dropWhile_cons, hc]
  | cons a as ih =>
    intro c l2 h1 hc
    have ha : p a = true := h1 a (List.mem_cons_self a as)
    simp only [List.cons_append, List.dropWhile_cons, ha, if_pos]
    rw [ih c l2 (fun x hx => h1 x (List.mem_cons_of_mem a hx)) hc]

/-- Parse one dispatch-table entry line back into its
`(eventId, typeId, name)` components.  Purely positional: the event ID is
the digit run after the two-space indent, the type ID the digit run after
`: { typeId: `, and the name everything between `, name: "` and the
closing `" },`. -/
def parseEntry (l : String) : Option (Nat × Nat × String) := do
  let cs0 ← dropExpect ("  ".data) l.data
  let e ← parseNatChars (cs0.takeWhile isDig)
  let cs1 := cs0.dropWhile isDig
  let cs2 ← dropExpect (": \x7b typeId: ".data) cs1
  let t ← parseNatChars (cs2.takeWhile isDig)
  let cs3 := cs2.dropWhile isDig
  let cs4 ← dropExpect (", name: \"".data) cs3
  let nm ← takeBeforeTail ("\" \x7d,".data) cs4
  some (e, t, ⟨nm⟩)

/-- Rendering a dispatch-table pair and parsing the line back is the
identity — the emitted line structurally encodes the pair unchanged. -/
theorem parseEntry_eventEntryLine (e t : Nat) (n : String) :
    parseEntry (eventEntryLine (e, t, n)) = some (e, t, n) := by
  have hdata : (eventEntryLine (e, t, n)).data =
      "  ".data ++ ((natStr e).data ++ (':' ::
        (" \x7b typeId: ".data ++ ((natStr t).data ++ (',' ::
          (" name: \"".data ++ (n.data ++ "\" \x7d,".data))))))) := by
    simp [eventEntryLine, String.data_append, List.append_assoc]
  have hcolon : isDig ':' = false := by decide
  have hcomma : isDig ',' = false := by decide
  unfold parseEntry
  rw [hdata, dropExpect_pre]
  simp only [Option.bind_eq_bind, Option.some_bind]
  rw [takeWhile_append_not isDig _ _ _ (natStr_digits e) hcolon,
      dropWhile_append_not isDig _ _ _ (natStr_digits e) hcolon,
      natStr_parse]
  simp only [Option.some_bind]
  rw [dropExpect_cons_pre]
  simp only [Option.some_bind]
  rw [takeWhile_append_not isDig _ _ _ (natStr_digits t) hcomma,
      dropWhile_append_not isDig _ _ _ (natStr_digits t) hcomma,
      natStr_parse]
  simp only [Option.some_bind]
  rw [dropExpect_cons_pre]
  simp only [Option.some_bind]
  rw [takeBeforeTail_app]
  rfl

/-! String join and line-splitting machinery. -/

theorem strJoin_data (ls : List String) :
    (strJoin ls).data = (ls.map String.data).flatten := by
  induction ls with
  | nil => rfl
  | cons s rest ih =>
    simp only [strJoin, List.map_cons, List.flatten_cons, String.data_append, ih]

theorem str_ext {a b : String} (h : a.data = b.data) : a = b := by
  cases a; cases b; exact congrArg String.mk h

theorem strJoin_append (a b : List String) :
    strJoin (a ++ b) = strJoin a ++ strJoin b := by
  apply str_ext
  simp [strJoin_data, String.data_append]

theorem joinNl_append (a b : List String) :
    joinNl (a ++ b) = joinNl a ++ joinNl b := by
  unfold joinNl
  rw [List.map_append, strJoin_append]

theorem joinNl_cons (l : String) (ls : List String) :
    joinNl (l :: ls) = l ++ "\n" ++ joinNl ls := rfl

theorem joinNl_nil : joinNl [] = "" := rfl

/-- Membership in a line list places the line, newline-terminated, as a
substring of the joined text. -/
theorem mem_joinNl {x : String} :
    ∀ {ls : List String}, x ∈ ls →
      ∃ p q, joinNl ls = p ++ (x ++ "\n") ++ q := by
  intro ls
  induction ls with
  | nil => intro h; cases h
  | cons l rest ih =>
    intro h
    rcases List.mem_cons.mp h with h1 | h2
    · subst h1
      refine ⟨"", joinNl rest, ?_⟩
      rw [joinNl_cons]
      apply str_ext
      simp [String.data_append]
    · rcases ih h2 with ⟨p, q, hpq⟩
      refine ⟨l ++ "\n" ++ p, q, ?_⟩
      rw [joinNl_cons, hpq]
      apply str_ext
      simp [String.data_append]

/-- Split a character list at newline characters.  A trailing newline
yields a final empty chunk. -/
def splitNl : List Char → List (List Char)
  | [] => [[]]
  | c :: cs =>
    if c = '\n' then [] :: splitNl cs
    else
      match splitNl cs with
      | [] => [[c]]
      | l :: ls => (c :: l) :: ls

theorem splitNl_ne_nil : ∀ cs, splitNl cs ≠ [] := by
  intro cs
  induction cs with
  | nil => simp [splitNl]
  | cons c rest ih =>
    simp only [splitNl]
    by_cases hc : c = '\n'
    · rw [if_pos hc]; simp
    · rw [if_neg hc]
      cases h : splitNl rest with
      | nil => simp
      | cons l ls => simp

theorem splitNl_line (rest : List Char) :
    ∀ l : List Char, '\n' ∉ l → splitNl (l ++ '\n' :: rest) = l :: splitNl rest := by
  intro l
  induction l with
  | nil => intro _; simp [splitNl]
  | cons c cs ih =>
    intro h
    have hc : c ≠ '\n' := fun hc => h (hc ▸ List.mem_cons_self c cs)
    have hcs : '\n' ∉ cs := fun hm => h (List.mem_cons_of_mem c hm)
    simp only [List.cons_append, splitNl, if_neg hc]
    simp only [List.append_eq]
    rw [ih hcs]

/-- Splitting the newline-joined lines recovers the lines (plus the final
empty chunk from the trailing newline), provided no line contains a raw
newline itself. -/
theorem splitNl_joinNl :
    ∀ ls : List String, (∀ l ∈ ls, '\n' ∉ l.data) →
      splitNl (joinNl ls).data = ls.map String.data ++ [[]] := by
  intro ls
  induction ls with
  | nil => intro _; rfl
  | cons l rest ih =>
    intro h
    rw [joinNl_cons]
    have hdata : (l ++ "\n" ++ joinNl rest).data = l.data ++ '\n' :: (joinNl rest).data := by
      simp [String.data_append]
    rw [hdata, splitNl_line _ _ (h l (List.mem_cons_self l rest))]
    rw [ih (fun x hx => h x (List.mem_cons_of_mem l hx))]
    simp

/-! No raw newline ever appears inside a rendered Python value: newlines in
string content are escaped by `repr`, and all structural characters are
printable.  This is what makes every emitted line of the output a single
output line. -/

theorem natStr_noNl (n : Nat) : '\n' ∉ (natStr n).data := fun h =>
  isDig_ne_newline (natStr_digits n _ h) rfl

theorem intStr_noNl (i : Int) : '\n' ∉ (intStr i).data := by
  unfold intStr
  split_ifs
  · intro h
    rw [String.data_append] at h
    rcases List.mem_append.mp h with h1 | h2
    · simp at h1
    · exact natStr_noNl _ h2
  · exact natStr_noNl _

theorem hexDig_ne_nl (m : Nat) (h : m < 16) : hexDig m ≠ '\n' := by
  interval_cases m <;> decide

theorem escChar_ne_nl (q c x : Char) (hq : q ≠ '\n') (hx : x ∈ escChar q c) :
    x ≠ '\n' := by
  unfold escChar at hx
  split_ifs at hx with h1 h2 h3 h4 h5 h6
  · rcases List.mem_cons.mp hx with h | h
    · subst h; decide
    · simp at h; subst h; decide
  · rcases List.mem_cons.mp hx with h | h
    · subst h; decide
    · simp at h; subst h; exact hq
  · rcases List.mem_cons.mp hx with h | h
    · subst h; decide
    · simp at h; subst h; decide
  · rcases List.mem_cons.mp hx with h | h
    · subst h; decide
    · simp at h; subst h; decide
  · rcases List.mem_cons.mp hx with h | h
    · subst h; decide
    · simp at h; subst h; decide
  · have hb : c.toNat < 32 ∨ c.toNat = 127 := by
      rcases Bool.or_eq_true_iff.mp h6 with hb | hb
      · exact Or.inl (by exact_mod_cast of_decide_eq_true hb)
      · exact Or.inr (by exact_mod_cast of_decide_eq_true hb)
    have hdiv : c.toNat / 16 < 16 := by omega
    have hmod : c.toNat % 16 < 16 := Nat.mod_lt _ (by omega)
    rcases List.mem_cons.mp hx with h | h
    · subst h; decide
    · rcases List.mem_cons.mp h with h | h
      · subst h; decide
      · rcases List.mem_cons.mp h with h | h
        · subst h; exact hexDig_ne_nl _ hdiv
        · simp at h; subst h; exact hexDig_ne_nl _ hmod
  · simp at hx
    subst hx
    intro hc
    subst hc
    simp at h3

theorem pyQuoteChar_ne_nl (s : String) : pyQuoteChar s ≠ '\n' := by
  unfold pyQuoteChar
  split_ifs <;> decide

theorem pyStrRepr_noNl (s : String) : '\n' ∉ (pyStrRepr s).data := by
  intro h
  have hqne := pyQuoteChar_ne_nl s
  unfold pyStrRepr at h
  simp only [String.data] at h
  rcases List.mem_cons.mp h with h1 | h2
  · exact hqne h1.symm
  rcases List.mem_append.mp h2 with h3 | h4
  · rcases List.mem_flatten.mp h3 with ⟨l, hl, hx⟩
    rcases List.mem_map.mp hl with ⟨c, _, hc⟩
    subst hc
    exact escChar_ne_nl _ c '\n' hqne hx rfl
  · simp at h4
    exact hqne h4.symm

theorem pyRepr_noNl_all : ∀ k : Nat,
    (∀ v : PyVal, sizeOf v ≤ k → '\n' ∉ (pyRepr v).data) ∧
    (∀ xs : PyValList, sizeOf xs ≤ k → '\n' ∉ (pyReprList xs).data) ∧
    (∀ ps : PyPairList, sizeOf ps ≤ k → '\n' ∉ (pyReprPairs ps).data) := by
  intro k
  induction k using Nat.strong_induction_on with
  | _ k ih =>
    refine ⟨?_, ?_, ?_⟩
    · intro v hv
      match v with
      | .intv n => exact intStr_noNl n
      | .strv s => exact pyStrRepr_noNl s
      | .nonev => intro h; simp [pyRepr] at h
      | .listv xs =>
        have hs : sizeOf xs < k := by
          have := PyVal.listv.sizeOf_spec xs
          omega
        have hrec := (ih (sizeOf xs) hs).2.1 xs (le_refl _)
        intro h
        simp only [pyRepr, String.data_append] at h
        rcases List.mem_append.mp h with h1 | h2
        · rcases List.mem_append.mp h1 with h3 | h4
          · simp at h3
          · exact hrec h4
        · simp at h2
      | .tuplev (.cons x .nil) =>
        have hs : sizeOf x < k := by
          have h1 := PyVal.tuplev.sizeOf_spec (PyValList.cons x PyValList.nil)
          have h2 := PyValList.cons.sizeOf_spec x PyValList.nil
          omega
        have hrec := (ih (sizeOf x) hs).1 x (le_refl _)
        intro h
        simp only [pyRepr, String.data_append] at h
        rcases List.mem_append.mp h with h1 | h2
        · rcases List.mem_append.mp h1 with h3 | h4
          · simp at h3
          · exact hrec h4
        · simp at h2
      | .tuplev .nil =>
        intro h
        simp [pyRepr, pyReprList, String.data_append] at h
      | .tuplev (.cons x (.cons y rest)) =>
        have hs : sizeOf (PyValList.cons x (PyValList.cons y rest)) < k := by
          have := PyVal.tuplev.sizeOf_spec (PyValList.cons x (PyValList.cons y rest))
          omega
        have hrec := (ih _ hs).2.1 (PyValList.cons x (PyValList.cons y rest)) (le_refl _)
        intro h
        simp only [pyRepr, String.data_append] at h
        rcases List.mem_append.mp h with h1 | h2
        · rcases List.mem_append.mp h1 with h3 | h4
          · simp at h3
          · exact hrec h4
        · simp at h2
      | .dictv ps =>
        have hs : sizeOf ps < k := by
          have := PyVal.dictv.sizeOf_spec ps
          omega
        have hrec := (ih (sizeOf ps) hs).2.2 ps (le_refl _)
        intro h
        simp only [pyRepr, String.data_append] at h
        rcases List.mem_append.mp h with h1 | h2
        · rcases List.mem_append.mp h1 with h3 | h4
          · simp at h3
          · exact hrec h4
        · simp at h2
    · intro xs hxs
      match xs with
      | .nil => intro h; simp [pyReprList] at h
      | .cons x .nil =>
        have hs : sizeOf x < k := by
          have := PyValList.cons.sizeOf_spec x PyValList.nil
          omega
        exact fun h => (ih (sizeOf x) hs).1 x (le_refl _) (by simpa [pyReprList] using h)
      | .cons x (.cons y rest) =>
        have hsx : sizeOf x < k := by
          have h1 := PyValList.cons.sizeOf_spec x (PyValList.cons y rest)
          omega
        have hsr : sizeOf (PyValList.cons y rest) < k := by
          have h1 := PyValList.cons.sizeOf_spec x (PyValList.cons y rest)
          omega
        intro h
        simp only [pyReprList, String.data_append] at h
        rcases List.mem_append.mp h with h1 | h2
        · rcases List.mem_append.mp h1 with h3 | h4
          · exact (ih (sizeOf x) hsx).1 x (le_refl _) h3
          · simp at h4
        · exact (ih _ hsr).2.1 _ (le_refl _) h2
    · intro ps hps
      match ps with
      | .nil => intro h; simp [pyReprPairs] at h
      | .cons a b .nil =>
        have hsa : sizeOf a < k := by
          have := PyPairList.cons.sizeOf_spec a b PyPairList.nil
          omega
        have hsb : sizeOf b < k := by
          have := PyPairList.cons.sizeOf_spec a b PyPairList.nil
          omega
        intro h
        simp only [pyReprPairs, String.data_append] at h
        rcases List.mem_append.mp h with h1 | h2
        · rcases List.mem_append.mp h1 with h3 | h4
          · exact (ih (sizeOf a) hsa).1 a (le_refl _) h3
          · simp at h4
        · exact (ih (sizeOf b) hsb).1 b (le_refl _) h2
      | .cons a b (.cons c2 d2 rest) =>
        have hspec := PyPairList.cons.sizeOf_spec a b (PyPairList.cons c2 d2 rest)
        have hsa : sizeOf a < k := by omega
        have hsb : sizeOf b < k := by omega
        have hsr : sizeOf (PyPairList.cons c2 d2 rest) < k := by omega
        intro h
        simp only [pyReprPairs, String.data_append] at h
        rcases List.mem_append.mp h with h1 | h2
        · rcases List.mem_append.mp h1 with h3 | h4
          · rcases List.mem_append.mp h3 with h5 | h6
            · rcases List.mem_append.mp h5 with h7 | h8
              · exact (ih (sizeOf a) hsa).1 a (le_refl _) h7
              · simp at h8
            · exact (ih (sizeOf b) hsb).1 b (le_refl _) h6
          · simp at h4
        · exact (ih _ hsr).2.2 _ (le_refl _) h2

/-- No rendered Python value contains a raw newline. -/
theorem pyRepr_noNl (v : PyVal) : '\n' ∉ (pyRepr v).data :=
  (pyRepr_noNl_all (sizeOf v)).1 v (le_refl _)

/-- The quote substitution cannot introduce a newline. -/
theorem replaceQuotes_noNl {s : String} (h : '\n' ∉ s.data) :
    '\n' ∉ (replaceQuotes s).data := by
  intro hm
  unfold replaceQuotes at hm
  simp only [String.data] at hm
  rcases List.mem_map.mp hm with ⟨c, hc, hcc⟩
  by_cases hs : c = squote
  · rw [if_pos hs] at hcc
    exact absurd hcc (by decide)
  · rw [if_neg hs] at hcc
    subst hcc
    exact h hc

theorem pyStr_eq_pyRepr (v : PyVal) (h : ∀ s, v ≠ PyVal.strv s) :
    pyStr v = pyRepr v := by
  cases v with
  | strv s => exact absurd rfl (h s)
  | intv n => rfl
  | nonev => rfl
  | listv xs => rfl
  | tuplev xs => rfl
  | dictv ps => rfl

/-- A formatted shape contains a raw newline only when the shape is a
top-level string that does: on every other value Python `str` is `repr`,
which escapes newlines. -/
theorem formattedData_noNl_of_not_str (v : PyVal) (h : ∀ s, v ≠ PyVal.strv s) :
    '\n' ∉ (formattedData v).data := by
  unfold formattedData
  rw [pyStr_eq_pyRepr v h]
  exact replaceQuotes_noNl (pyRepr_noNl v)

/-! Line-level structure of the two outputs. -/

/-- The fixed file-mode lines up to and including the opening of the
catalog array literal. -/
def fileHeadLines : List String :=
  ["// Auto-generated TypeScript protocol definitions",
   "// Generated from StarCraft II protocol specification",
   "",
   "export interface ProtocolTypeInfo \x7b",
   "  type: string;",
   "  data: any[];",
   "\x7d",
   "",
   "export interface EventType \x7b",
   "  typeId: number;",
   "  name: string;",
   "\x7d",
   "",
   "// Protocol type information array",
   "export const protocolTypeinfos: ProtocolTypeInfo[] = ["]

/-- File-mode lines closing the catalog and opening the game table. -/
def fileGameHeadLines : List String :=
  ["];", "", "export const gameEventTypes: Record<number, EventType> = \x7b"]

/-- File-mode lines closing the game table and opening the message
table. -/
def fileMessageHeadLines : List String :=
  ["\x7d;", "", "export const messageEventTypes: Record<number, EventType> = \x7b"]

/-- File-mode lines closing the message table and opening the tracker
table. -/
def fileTrackerHeadLines : List String :=
  ["\x7d;", "", "export const trackerEventTypes: Record<number, EventType> = \x7b"]

/-- The four helper lookup-function declarations closing the file-mode
output (preceded by their blank separator line). -/
def fileHelperLines : List String :=
  ["",
   "// Helper functions for protocol parsing",
   "export function getTypeInfo(typeId: number): ProtocolTypeInfo | undefined \x7b",
   "  return protocolTypeinfos[typeId];",
   "\x7d",
   "",
   "export function getGameEventType(eventId: number): EventType | undefined \x7b",
   "  return gameEventTypes[eventId];",
   "\x7d",
   "",
   "export function getMessageEventType(eventId: number): EventType | undefined \x7b",
   "  return messageEventTypes[eventId];",
   "\x7d",
   "",
   "export function getTrackerEventType(eventId: number): EventType | undefined \x7b",
   "  return trackerEventTypes[eventId];",
   "\x7d"]

/-- The file-mode output, as the list of lines it is made of. -/
def fileLines (d : Descriptor) : List String :=
  fileHeadLines
  ++ catalogLines d.typeinfos
  ++ fileGameHeadLines
  ++ tableLines d.game_event_types
  ++ fileMessageHeadLines
  ++ tableLines d.message_event_types
  ++ fileTrackerHeadLines
  ++ tableLines d.tracker_event_types
  ++ ["\x7d;", ""]
  ++ constLines d
  ++ fileHelperLines

set_option maxHeartbeats 4000000 in
/-- The file-mode output is exactly its lines, newline-joined. -/
theorem fileRender_eq_joinNl (d : Descriptor) :
    generate_typescript_protocol_file d = joinNl (fileLines d) := by
  apply str_ext
  simp [generate_typescript_protocol_file, fileLines, joinNl, strJoin_data,
        String.data_append, List.map_append, List.map_map, List.flatten_append,
        fileHeader, fileTrailer, constLines, fileHeadLines, fileGameHeadLines,
        fileMessageHeadLines, fileTrackerHeadLines, fileHelperLines,
        List.append_assoc, Function.comp]

/-! No line of either output contains a raw newline, provided the type and
event names in the descriptor do not. -/

theorem catalogEntryLine_noNl (i : Nat) (e : String × PyVal)
    (h : '\n' ∉ e.1.data) (hd : '\n' ∉ (formattedData e.2).data) :
    '\n' ∉ (catalogEntryLine i e).data := by
  unfold catalogEntryLine
  intro hm
  simp only [String.data_append, List.mem_append] at hm
  rcases hm with ((((h1 | h2) | h3) | h4) | h5) | h6
  · exact absurd h1 (by decide)
  · exact h h2
  · exact absurd h3 (by decide)
  · exact hd h4
  · exact absurd h5 (by decide)
  · exact natStr_noNl i h6

theorem eventEntryLine_noNl (p : Nat × Nat × String)
    (h : '\n' ∉ p.2.2.data) : '\n' ∉ (eventEntryLine p).data := by
  unfold eventEntryLine
  intro hm
  simp only [String.data_append, List.mem_append] at hm
  rcases hm with (((((h1 | h2) | h3) | h4) | h5) | h6) | h7
  · exact absurd h1 (by decide)
  · exact natStr_noNl p.1 h2
  · exact absurd h3 (by decide)
  · exact natStr_noNl p.2.1 h4
  · exact absurd h5 (by decide)
  · exact h h6
  · exact absurd h7 (by decide)

theorem constLine_shape_noNl (a : String) (n : Nat) (ha : '\n' ∉ a.data) :
    '\n' ∉ (a ++ natStr n ++ ";").data := by
  intro hm
  simp only [String.data_append, List.mem_append] at hm
  rcases hm with (h1 | h2) | h3
  · exact ha h1
  · exact natStr_noNl n h2
  · exact absurd h3 (by decide)

theorem constLines_noNl (d : Descriptor) :
    ∀ l ∈ constLines d, '\n' ∉ l.data := by
  intro l hl
  simp only [constLines, List.mem_cons, List.not_mem_nil, or_false] at hl
  rcases hl with h | h | h | h | h | h | h | h | h <;> subst h
  · decide
  all_goals exact constLine_shape_noNl _ _ (by decide)

theorem catalogLines_noNl (ts : List (String × PyVal))
    (h : ∀ e ∈ ts, '\n' ∉ (Prod.fst e).data ∧ '\n' ∉ (formattedData (Prod.snd e)).data) :
    ∀ l ∈ catalogLines ts, '\n' ∉ l.data := by
  intro l hl
  rcases List.mem_map.mp hl with ⟨p, hp, hpl⟩
  subst hpl
  have hmem : p.2 ∈ ts := List.getElem?_mem (List.mem_enum_iff_getElem?.mp hp)
  exact catalogEntryLine_noNl p.1 p.2 (h p.2 hmem).1 (h p.2 hmem).2

theorem tableLines_noNl (tbl : List (Nat × Nat × String))
    (h : ∀ p ∈ tbl, '\n' ∉ p.2.2.data) :
    ∀ l ∈ tableLines tbl, '\n' ∉ l.data := by
  intro l hl
  rcases List.mem_map.mp hl with ⟨p, hp, hpl⟩
  subst hpl
  exact eventEntryLine_noNl p (h p hp)

/-- The names occurring in a descriptor, and the formatted shape of each
catalog entry, contain no raw newline.  (A top-level string shape is the
one way a raw newline can reach the formatted data; any other shape
satisfies the data half automatically, by
`formattedData_noNl_of_not_str`.) -/
def renderNoNl (d : Descriptor) : Prop :=
  (∀ e ∈ d.typeinfos, '\n' ∉ (Prod.fst e).data ∧
    '\n' ∉ (formattedData (Prod.snd e)).data) ∧
  (∀ p ∈ d.game_event_types, '\n' ∉ (Prod.snd (Prod.snd p)).data) ∧
  (∀ p ∈ d.message_event_types, '\n' ∉ (Prod.snd (Prod.snd p)).data) ∧
  (∀ p ∈ d.tracker_event_types, '\n' ∉ (Prod.snd (Prod.snd p)).data)

theorem fileLines_noNl (d : Descriptor) (h : renderNoNl d) :
    ∀ l ∈ fileLines d, '\n' ∉ l.data := by
  unfold fileLines fileHeadLines fileGameHeadLines fileMessageHeadLines fileTrackerHeadLines fileHelperLines
  repeat rw [List.forall_mem_append]
  repeat' apply And.intro
  all_goals first
    | decide
    | exact catalogLines_noNl _ h.1
    | exact tableLines_noNl _ h.2.1
    | exact tableLines_noNl _ h.2.2.1
    | exact tableLines_noNl _ h.2.2.2
    | exact constLines_noNl d

theorem consoleLines_noNl (d : Descriptor) (h : renderNoNl d) :
    ∀ l ∈ consoleLines d, '\n' ∉ l.data := by
  unfold consoleLines consoleHeadLines consoleGameHeadLines consoleMessageHeadLines consoleTrackerHeadLines
  repeat rw [List.forall_mem_append]
  repeat' apply And.intro
  all_goals first
    | decide
    | exact catalogLines_noNl _ h.1
    | exact tableLines_noNl _ h.2.1
    | exact tableLines_noNl _ h.2.2.1
    | exact tableLines_noNl _ h.2.2.2
    | exact constLines_noNl d

/-! Claim-level definitions and theorems. -/

/-- Text `out` contains `l` as one full output line. -/
def containsLine (out l : String) : Prop := ∃ p q, out = p ++ (l ++ "\n") ++ q

/-- Ambient state that a rendering step could in principle consult.  The
script consults none of it: neither rendering path reads the clock, a
random source, or any environment value, so the embedded renderers take
this state and ignore it. -/
structure Ambient where
  timestamp : Nat
  randomSeed : Nat
  envText : String

/-- Console-mode rendering in the presence of ambient state.  The body is
`convert_typeinfos_to_typescript` alone because the script's console path
reads nothing but the descriptor. -/
def consoleRenderIn (_a : Ambient) (d : Descriptor) : String :=
  convert_typeinfos_to_typescript d

/-- File-mode rendering in the presence of ambient state.  The body is
`generate_typescript_protocol_file` alone because the script's file path
reads nothing but the descriptor. -/
def fileRenderIn (_a : Ambient) (d : Descriptor) : String :=
  generate_typescript_protocol_file d

/-- C7.  Determinism: rendering is a pure function of the descriptor; the
output text is byte-identical across invocations under arbitrarily
different ambient state (timestamps, randomness, environment). -/
theorem render_deterministic :
    ∀ (d : Descriptor) (a1 a2 : Ambient),
      consoleRenderIn a1 d = consoleRenderIn a2 d ∧
      fileRenderIn a1 d = fileRenderIn a2 d :=
  fun _ _ _ => ⟨rfl, rfl⟩

/-- The reference scenario: empty catalog, three empty dispatch tables,
and the eight constants of the source header comment,
`{0, 1, 2, 7, 8, 18, 40, 73}`. -/
def emptyScenario : Descriptor :=
  { typeinfos := [], game_event_types := [], message_event_types := [],
    tracker_event_types := [], game_eventid_typeid := 0,
    message_eventid_typeid := 1, tracker_eventid_typeid := 2,
    svaruint32_typeid := 7, replay_userid_typeid := 8,
    replay_header_typeid := 18, game_details_typeid := 40,
    replay_initdata_typeid := 73 }

theorem mem_consoleLines_of_mem_constLines (d : Descriptor) {l : String}
    (h : l ∈ constLines d) : l ∈ consoleLines d := by
  unfold consoleLines
  repeat rw [List.mem_append]
  exact Or.inr h

theorem mem_fileLines_of_mem_constLines (d : Descriptor) {l : String}
    (h : l ∈ constLines d) : l ∈ fileLines d := by
  unfold fileLines
  repeat rw [List.mem_append]
  exact Or.inl (Or.inr h)

/-- C6.  Constant fidelity and the empty-descriptor scenario: every
constant-declaration line (binding each named constant to its exact input
value) appears as a line of both outputs, and on the scenario descriptor
both renderings equal, byte for byte, a document with an empty catalog
array literal, three empty mapping literals, and the eight constants bound
to 0, 1, 2, 7, 8, 18, 40, 73 in enumeration order. -/
theorem constant_fidelity_and_empty_scenario :
    (∀ (d : Descriptor), ∀ l ∈ constLines d,
      containsLine (convert_typeinfos_to_typescript d) l ∧
      containsLine (generate_typescript_protocol_file d) l) ∧
    convert_typeinfos_to_typescript emptyScenario =
      "// Generated TypeScript protocol definitions\n// Auto-generated from protocol typeinfos\n\nexport interface ProtocolTypeInfo \x7b\n  type: string;\n  data: any[];\n\x7d\n\nexport const protocolTypeinfos: ProtocolTypeInfo[] = [\n];\n\nexport const gameEventTypes: Record<number, \x7b typeId: number; name: string \x7d> = \x7b\n\x7d;\n\nexport const messageEventTypes: Record<number, \x7b typeId: number; name: string \x7d> = \x7b\n\x7d;\n\nexport const trackerEventTypes: Record<number, \x7b typeId: number; name: string \x7d> = \x7b\n\x7d;\n\n// Important protocol type IDs\nexport const GAME_EVENTID_TYPEID = 0;\nexport const MESSAGE_EVENTID_TYPEID = 1;\nexport const TRACKER_EVENTID_TYPEID = 2;\nexport const SVARUINT32_TYPEID = 7;\nexport const REPLAY_USERID_TYPEID = 8;\nexport const REPLAY_HEADER_TYPEID = 18;\nexport const GAME_DETAILS_TYPEID = 40;\nexport const REPLAY_INITDATA_TYPEID = 73;\n" ∧
    generate_typescript_protocol_file emptyScenario =
      "// Auto-generated TypeScript protocol definitions\n// Generated from StarCraft II protocol specification\n\nexport interface ProtocolTypeInfo \x7b\n  type: string;\n  data: any[];\n\x7d\n\nexport interface EventType \x7b\n  typeId: number;\n  name: string;\n\x7d\n\n// Protocol type information array\nexport const protocolTypeinfos: ProtocolTypeInfo[] = [\n];\n\nexport const gameEventTypes: Record<number, EventType> = \x7b\n\x7d;\n\nexport const messageEventTypes: Record<number, EventType> = \x7b\n\x7d;\n\nexport const trackerEventTypes: Record<number, EventType> = \x7b\n\x7d;\n\n// Important protocol type IDs\nexport const GAME_EVENTID_TYPEID = 0;\nexport const MESSAGE_EVENTID_TYPEID = 1;\nexport const TRACKER_EVENTID_TYPEID = 2;\nexport const SVARUINT32_TYPEID = 7;\nexport const REPLAY_USERID_TYPEID = 8;\nexport const REPLAY_HEADER_TYPEID = 18;\nexport const GAME_DETAILS_TYPEID = 40;\nexport const REPLAY_INITDATA_TYPEID = 73;\n\n// Helper functions for protocol parsing\nexport function getTypeInfo(typeId: number): ProtocolTypeInfo | undefined \x7b\n  return protocolTypeinfos[typeId];\n\x7d\n\nexport function getGameEventType(eventId: number): EventType | undefined \x7b\n  return gameEventTypes[eventId];\n\x7d\n\nexport function getMessageEventType(eventId: number): EventType | undefined \x7b\n  return messageEventTypes[eventId];\n\x7d\n\nexport function getTrackerEventType(eventId: number): EventType | undefined \x7b\n  return trackerEventTypes[eventId];\n\x7d\n" := by
  refine ⟨?_, by decide, by rw [fileRender_eq_joinNl]; rfl⟩
  intro d l hl
  constructor
  · exact mem_joinNl (mem_consoleLines_of_mem_constLines d hl)
  · rw [fileRender_eq_joinNl]
    exact mem_joinNl (mem_fileLines_of_mem_constLines d hl)

/-- Witness for C6 at a concrete constant line of the scenario
descriptor. -/
theorem constant_fidelity_and_empty_scenario_witness :
    containsLine (convert_typeinfos_to_typescript emptyScenario)
      "export const REPLAY_INITDATA_TYPEID = 73;" :=
  (constant_fidelity_and_empty_scenario.1 emptyScenario
    "export const REPLAY_INITDATA_TYPEID = 73;" (by decide)).1

/-! Slicing the outputs around their table and catalog blocks. -/

theorem strAppend_assoc (a b c : String) : (a ++ b) ++ c = a ++ (b ++ c) := by
  apply str_ext
  simp [String.data_append, List.append_assoc]

theorem output_has_block {L X M Y : List String}
    (h : L = X ++ (M ++ Y)) : ∃ p q, joinNl L = p ++ joinNl M ++ q := by
  subst h
  refine ⟨joinNl X, joinNl Y, ?_⟩
  rw [joinNl_append, joinNl_append]
  rw [strAppend_assoc]

theorem consoleLines_slice_cat (d : Descriptor) : consoleLines d =
    consoleHeadLines ++ (catalogLines d.typeinfos ++
      (consoleGameHeadLines ++ tableLines d.game_event_types ++
       consoleMessageHeadLines ++ tableLines d.message_event_types ++
       consoleTrackerHeadLines ++ tableLines d.tracker_event_types ++
       ["\x7d;", ""] ++ constLines d)) := by
  simp [consoleLines, List.append_assoc]

theorem consoleLines_slice_game (d : Descriptor) : consoleLines d =
    (consoleHeadLines ++ catalogLines d.typeinfos ++ consoleGameHeadLines) ++
      (tableLines d.game_event_types ++
       (consoleMessageHeadLines ++ tableLines d.message_event_types ++
        consoleTrackerHeadLines ++ tableLines d.tracker_event_types ++
        ["\x7d;", ""] ++ constLines d)) := by
  simp [consoleLines, List.append_assoc]

theorem consoleLines_slice_message (d : Descriptor) : consoleLines d =
    (consoleHeadLines ++ catalogLines d.typeinfos ++ consoleGameHeadLines ++
     tableLines d.game_event_types ++ consoleMessageHeadLines) ++
      (tableLines d.message_event_types ++
       (consoleTrackerHeadLines ++ tableLines d.tracker_event_types ++
        ["\x7d;", ""] ++ constLines d)) := by
  simp [consoleLines, List.append_assoc]

theorem consoleLines_slice_tracker (d : Descriptor) : consoleLines d =
    (consoleHeadLines ++ catalogLines d.typeinfos ++ consoleGameHeadLines ++
     tableLines d.game_event_types ++ consoleMessageHeadLines ++
     tableLines d.message_event_types ++ consoleTrackerHeadLines) ++
      (tableLines d.tracker_event_types ++ (["\x7d;", ""] ++ constLines d)) := by
  simp [consoleLines, List.append_assoc]

theorem fileLines_slice_cat (d : Descriptor) : fileLines d =
    fileHeadLines ++ (catalogLines d.typeinfos ++
      (fileGameHeadLines ++ tableLines d.game_event_types ++
       fileMessageHeadLines ++ tableLines d.message_event_types ++
       fileTrackerHeadLines ++ tableLines d.tracker_event_types ++
       ["\x7d;", ""] ++ constLines d ++ fileHelperLines)) := by
  simp [fileLines, List.append_assoc]

theorem fileLines_slice_game (d : Descriptor) : fileLines d =
    (fileHeadLines ++ catalogLines d.typeinfos ++ fileGameHeadLines) ++
      (tableLines d.game_event_types ++
       (fileMessageHeadLines ++ tableLines d.message_event_types ++
        fileTrackerHeadLines ++ tableLines d.tracker_event_types ++
        ["\x7d;", ""] ++ constLines d ++ fileHelperLines)) := by
  simp [fileLines, List.append_assoc]

theorem fileLines_slice_message (d : Descriptor) : fileLines d =
    (fileHeadLines ++ catalogLines d.typeinfos ++ fileGameHeadLines ++
     tableLines d.game_event_types ++ fileMessageHeadLines) ++
      (tableLines d.message_event_types ++
       (fileTrackerHeadLines ++ tableLines d.tracker_event_types ++
        ["\x7d;", ""] ++ constLines d ++ fileHelperLines)) := by
  simp [fileLines, List.append_assoc]

theorem fileLines_slice_tracker (d : Descriptor) : fileLines d =
    (fileHeadLines ++ catalogLines d.typeinfos ++ fileGameHeadLines ++
     tableLines d.game_event_types ++ fileMessageHeadLines ++
     tableLines d.message_event_types ++ fileTrackerHeadLines) ++
      (tableLines d.tracker_event_types ++
       (["\x7d;", ""] ++ constLines d ++ fileHelperLines)) := by
  simp [fileLines, List.append_assoc]

/-- The trailing decimal annotation of a line: its maximal digit suffix. -/
def trailNum (l : String) : Option Nat :=
  parseNatChars ((l.data.reverse.takeWhile isDig).reverse)

theorem trailNum_append_space (b : String) (i : Nat) :
    trailNum ((b ++ " ") ++ natStr i) = some i := by
  unfold trailNum
  have hdata : ((b ++ " ") ++ natStr i).data.reverse
      = (natStr i).data.reverse ++ (' ' :: b.data.reverse) := by
    simp [String.data_append, List.reverse_append]
  rw [hdata, takeWhile_append_not isDig _ _ _ ?hd (by decide)]
  · rw [List.reverse_reverse]
    exact natStr_parse i
  case hd =>
    intro c hc
    exact natStr_digits i c (List.mem_reverse.mp hc)

/-- A shared concrete descriptor used by witnesses. -/
def sampleDescriptor : Descriptor :=
  { typeinfos := [("x", PyVal.intv 3)],
    game_event_types := [(5, 7, "UnitBorn")],
    message_event_types := [(0, 1, "Chat")],
    tracker_event_types := [(2, 3, "Upgrade")],
    game_eventid_typeid := 0, message_eventid_typeid := 1,
    tracker_eventid_typeid := 2, svaruint32_typeid := 7,
    replay_userid_typeid := 8, replay_header_typeid := 18,
    game_details_typeid := 40, replay_initdata_typeid := 73 }

/-- C5.  Index fidelity: the emitted catalog block has exactly one line
per input entry; the line at position `i` is the rendering of the input
entry at position `i` (order preserved); each such line carries a trailing
decimal annotation that parses back to exactly `i`; and the catalog block
appears inside both rendered outputs. -/
theorem index_fidelity (d : Descriptor) :
    (catalogLines d.typeinfos).length = d.typeinfos.length ∧
    (∀ (i : Nat) (e : String × PyVal), d.typeinfos[i]? = some e →
      (catalogLines d.typeinfos)[i]? = some (catalogEntryLine i e) ∧
      (∃ b, catalogEntryLine i e = (b ++ " ") ++ natStr i) ∧
      trailNum (catalogEntryLine i e) = some i) ∧
    (∃ p q, convert_typeinfos_to_typescript d
        = p ++ joinNl (catalogLines d.typeinfos) ++ q) ∧
    (∃ p q, generate_typescript_protocol_file d
        = p ++ joinNl (catalogLines d.typeinfos) ++ q) := by
  refine ⟨?_, ?_, ?_, ?_⟩
  · simp [catalogLines, List.enum]
  · intro i e he
    have hb : catalogEntryLine i e =
        (("  \x7b type: \"" ++ e.1 ++ "\", data: " ++ formattedData e.2
          ++ " \x7d, //" ++ " ")) ++ natStr i := by
      apply str_ext
      simp [catalogEntryLine, String.data_append, List.append_assoc]
    refine ⟨?_, ⟨_, hb⟩, ?_⟩
    · simp only [catalogLines, List.enum, List.getElem?_map, List.getElem?_enumFrom, he,
        Option.map_some]
      rw [Nat.zero_add]
      simp
    · rw [hb]
      exact trailNum_append_space _ i
  · exact output_has_block (consoleLines_slice_cat d)
  · rw [fileRender_eq_joinNl]
    exact output_has_block (fileLines_slice_cat d)

/-- Witness for C5 at the sample descriptor's only catalog entry. -/
theorem index_fidelity_witness :
    (catalogLines sampleDescriptor.typeinfos)[0]?
        = some (catalogEntryLine 0 ("x", PyVal.intv 3)) ∧
    trailNum (catalogEntryLine 0 ("x", PyVal.intv 3)) = some 0 :=
  ⟨((index_fidelity sampleDescriptor).2.1 0 ("x", PyVal.intv 3) (by decide)).1,
   ((index_fidelity sampleDescriptor).2.1 0 ("x", PyVal.intv 3) (by decide)).2.2⟩

theorem mem_consoleLines_of_mem_tables (d : Descriptor) {l : String}
    (h : l ∈ tableLines d.game_event_types ∨
         l ∈ tableLines d.message_event_types ∨
         l ∈ tableLines d.tracker_event_types) : l ∈ consoleLines d := by
  unfold consoleLines
  simp only [List.mem_append]
  tauto

theorem mem_fileLines_of_mem_tables (d : Descriptor) {l : String}
    (h : l ∈ tableLines d.game_event_types ∨
         l ∈ tableLines d.message_event_types ∨
         l ∈ tableLines d.tracker_event_types) : l ∈ fileLines d := by
  unfold fileLines
  simp only [List.mem_append]
  tauto

/-- C4.  Dispatch-table round-trip: for every `(eventId, (typeId, name))`
pair of any of the three dispatch tables, both outputs contain the entry
line whose mapping key is `eventId`, and that line structurally encodes
the event ID, type ID and name unchanged: parsing it back yields exactly
the input triple. -/
theorem dispatch_round_trip (d : Descriptor) (e t : Nat) (n : String)
    (h : (e, t, n) ∈ d.game_event_types ∨ (e, t, n) ∈ d.message_event_types ∨
         (e, t, n) ∈ d.tracker_event_types) :
    parseEntry (eventEntryLine (e, t, n)) = some (e, t, n) ∧
    (∀ tbl : List (Nat × Nat × String), (e, t, n) ∈ tbl →
      eventEntryLine (e, t, n) ∈ tableLines tbl) ∧
    containsLine (convert_typeinfos_to_typescript d) (eventEntryLine (e, t, n)) ∧
    containsLine (generate_typescript_protocol_file d) (eventEntryLine (e, t, n)) := by
  have hmem : eventEntryLine (e, t, n) ∈ tableLines d.game_event_types ∨
      eventEntryLine (e, t, n) ∈ tableLines d.message_event_types ∨
      eventEntryLine (e, t, n) ∈ tableLines d.tracker_event_types := by
    rcases h with h | h | h
    · exact Or.inl (List.mem_map_of_mem _ h)
    · exact Or.inr (Or.inl (List.mem_map_of_mem _ h))
    · exact Or.inr (Or.inr (List.mem_map_of_mem _ h))
  refine ⟨parseEntry_eventEntryLine e t n,
    fun tbl h2 => List.mem_map_of_mem _ h2, ?_, ?_⟩
  · exact mem_joinNl (mem_consoleLines_of_mem_tables d hmem)
  · rw [fileRender_eq_joinNl]
    exact mem_joinNl (mem_fileLines_of_mem_tables d hmem)

/-- Witness for C4 at the sample descriptor's game-table entry. -/
theorem dispatch_round_trip_witness :
    parseEntry (eventEntryLine (5, 7, "UnitBorn")) = some (5, 7, "UnitBorn") ∧
    containsLine (convert_typeinfos_to_typescript sampleDescriptor)
      (eventEntryLine (5, 7, "UnitBorn")) :=
  ⟨(dispatch_round_trip sampleDescriptor 5 7 "UnitBorn" (Or.inl (by decide))).1,
   (dispatch_round_trip sampleDescriptor 5 7 "UnitBorn" (Or.inl (by decide))).2.2.1⟩

/-- Parse a list of dispatch-table entry lines, in order; fails if any
line is not an entry line. -/
def parseEntryLines : List String → Option (List (Nat × Nat × String))
  | [] => some []
  | l :: rest => do
      let p ← parseEntry l
      let ps ← parseEntryLines rest
      some (p :: ps)

theorem tableLines_parse (tbl : List (Nat × Nat × String)) :
    parseEntryLines (tableLines tbl) = some tbl := by
  induction tbl with
  | nil => rfl
  | cons p rest ih =>
    have hp : parseEntry (eventEntryLine p) = some p := by
      rcases p with ⟨e, t, n⟩
      exact parseEntry_eventEntryLine e t n
    simp only [tableLines, List.map_cons, parseEntryLines, hp, Option.bind_eq_bind,
      Option.some_bind]
    rw [show parseEntryLines (List.map eventEntryLine rest) = some rest from ih]
    rfl

/-- C10.  Entry-order preservation: the emitted block for any of the three
dispatch tables has exactly one line per input pair; parsing its lines in
order reproduces the input table exactly (nothing added, dropped or
reordered); when the event names contain no raw newline, splitting the
rendered block text at newlines yields precisely those entry lines; and
the block appears inside both rendered outputs. -/
theorem table_order_preserved (d : Descriptor) (tbl : List (Nat × Nat × String))
    (h : tbl = d.game_event_types ∨ tbl = d.message_event_types ∨
         tbl = d.tracker_event_types) :
    (tableLines tbl).length = tbl.length ∧
    parseEntryLines (tableLines tbl) = some tbl ∧
    ((∀ p ∈ tbl, '\n' ∉ (Prod.snd (Prod.snd p)).data) →
      splitNl (joinNl (tableLines tbl)).data
        = (tableLines tbl).map String.data ++ [[]]) ∧
    (∃ p q, convert_typeinfos_to_typescript d = p ++ joinNl (tableLines tbl) ++ q) ∧
    (∃ p q, generate_typescript_protocol_file d = p ++ joinNl (tableLines tbl) ++ q) := by
  refine ⟨by simp [tableLines], tableLines_parse tbl, ?_, ?_, ?_⟩
  · intro hn
    exact splitNl_joinNl _ (tableLines_noNl tbl hn)
  · rcases h with h | h | h <;> subst h
    · exact output_has_block (consoleLines_slice_game d)
    · exact output_has_block (consoleLines_slice_message d)
    · exact output_has_block (consoleLines_slice_tracker d)
  · rw [fileRender_eq_joinNl]
    rcases h with h | h | h <;> subst h
    · exact output_has_block (fileLines_slice_game d)
    · exact output_has_block (fileLines_slice_message d)
    · exact output_has_block (fileLines_slice_tracker d)

/-- Witness for C10 at the sample descriptor's game table. -/
theorem table_order_preserved_witness :
    parseEntryLines (tableLines [(5, 7, "UnitBorn")]) = some [(5, 7, "UnitBorn")] ∧
    splitNl (joinNl (tableLines [(5, 7, "UnitBorn")])).data
      = (tableLines [(5, 7, "UnitBorn")]).map String.data ++ [[]] :=
  ⟨(table_order_preserved sampleDescriptor [(5, 7, "UnitBorn")] (Or.inl rfl)).2.1,
   (table_order_preserved sampleDescriptor [(5, 7, "UnitBorn")] (Or.inl rfl)).2.2.1
     (by decide)⟩

/-! Accessor-function surface of the two outputs. -/

/-- A line of output text that opens a function declaration. -/
def isAccessorSig (cs : List Char) : Bool := "export function ".data.isPrefixOf cs

theorem isAccessorSig_space (cs : List Char) :
    isAccessorSig (' ' :: cs) = false := by
  simp [isAccessorSig, List.isPrefixOf]

theorem catalogLine_data (i : Nat) (e : String × PyVal) :
    ∃ rest, (catalogEntryLine i e).data = ' ' :: rest := by
  refine ⟨" \x7b type: \"".data ++ e.1.data ++ "\", data: ".data
    ++ (formattedData e.2).data ++ " \x7d, // ".data ++ (natStr i).data, ?_⟩
  simp [catalogEntryLine, String.data_append, List.append_assoc]

theorem tableLine_data (p : Nat × Nat × String) :
    ∃ rest, (eventEntryLine p).data = ' ' :: rest := by
  refine ⟨" ".data ++ (natStr p.1).data ++ ": \x7b typeId: ".data
    ++ (natStr p.2.1).data ++ ", name: \"".data ++ p.2.2.data
    ++ "\" \x7d,".data, ?_⟩
  simp [eventEntryLine, String.data_append, List.append_assoc]

theorem filter_sig_catalog (ts : List (String × PyVal)) :
    ((catalogLines ts).map String.data).filter isAccessorSig = [] := by
  rw [List.filter_eq_nil_iff]
  intro a ha
  rcases List.mem_map.mp ha with ⟨l, hl, hla⟩
  rcases List.mem_map.mp hl with ⟨p, _, hpl⟩
  subst hla
  subst hpl
  rcases catalogLine_data p.1 p.2 with ⟨rest, hr⟩
  rw [hr, isAccessorSig_space]
  simp

theorem filter_sig_table (tbl : List (Nat × Nat × String)) :
    ((tableLines tbl).map String.data).filter isAccessorSig = [] := by
  rw [List.filter_eq_nil_iff]
  intro a ha
  rcases List.mem_map.mp ha with ⟨l, hl, hla⟩
  rcases List.mem_map.mp hl with ⟨p, _, hpl⟩
  subst hla
  subst hpl
  rcases tableLine_data p with ⟨rest, hr⟩
  rw [hr, isAccessorSig_space]
  simp

theorem isAccessorSig_const_shape (a : String) (n : Nat)
    (ha : isAccessorSig (a.data ++ (natStr n).data ++ ";".data) = false)
    : isAccessorSig ((a ++ natStr n ++ ";").data) = false := by
  simpa [String.data_append] using ha

theorem filter_sig_const (d : Descriptor) :
    ((constLines d).map String.data).filter isAccessorSig = [] := by
  rw [List.filter_eq_nil_iff]
  intro a ha
  rcases List.mem_map.mp ha with ⟨l, hl, hla⟩
  subst hla
  simp only [constLines, List.mem_cons, List.not_mem_nil, or_false] at hl
  rcases hl with h | h | h | h | h | h | h | h | h <;> subst h
  · decide
  all_goals
    simp [isAccessorSig, String.data_append, List.isPrefixOf]

/-- C8, as amended.  Accessor surface for descriptors whose names and
formatted catalog data contain no raw newline (`renderNoNl`): splitting
the file-mode output into lines, exactly four lines open function
declarations — the catalog lookup and one lookup per dispatch table, each
typed to return the entry or `undefined` — while the console-mode output
contains no function declaration at all; the full text of the four helper
declarations appears in the file output.  The newline restriction is
necessary: a top-level string shape smuggling a newline forges
declaration lines (`accessor_forgery_counterexample`). -/
theorem accessor_surface (d : Descriptor) (h : renderNoNl d) :
    (splitNl (generate_typescript_protocol_file d).data).filter isAccessorSig
      = ["export function getTypeInfo(typeId: number): ProtocolTypeInfo | undefined \x7b".data,
         "export function getGameEventType(eventId: number): EventType | undefined \x7b".data,
         "export function getMessageEventType(eventId: number): EventType | undefined \x7b".data,
         "export function getTrackerEventType(eventId: number): EventType | undefined \x7b".data] ∧
    (splitNl (convert_typeinfos_to_typescript d).data).filter isAccessorSig = [] ∧
    (∀ l ∈ fileHelperLines, containsLine (generate_typescript_protocol_file d) l) := by
  refine ⟨?_, ?_, ?_⟩
  · rw [fileRender_eq_joinNl, splitNl_joinNl _ (fileLines_noNl d h)]
    unfold fileLines
    simp only [List.map_append, List.filter_append, filter_sig_catalog,
      filter_sig_table, filter_sig_const]
    decide
  · rw [show convert_typeinfos_to_typescript d = joinNl (consoleLines d) from rfl,
        splitNl_joinNl _ (consoleLines_noNl d h)]
    unfold consoleLines
    simp only [List.map_append, List.filter_append, filter_sig_catalog,
      filter_sig_table, filter_sig_const]
    decide
  · intro l hl
    have hmem : l ∈ fileLines d := by
      unfold fileLines
      simp only [List.mem_append]
      tauto
    rw [fileRender_eq_joinNl]
    exact mem_joinNl hmem

/-- Witness for C8 at the sample descriptor. -/
theorem accessor_surface_witness :
    (splitNl (convert_typeinfos_to_typescript sampleDescriptor).data).filter
      isAccessorSig = [] :=
  (accessor_surface sampleDescriptor
    ⟨by
      intro e he
      simp only [sampleDescriptor, List.mem_singleton] at he
      subst he
      exact ⟨by decide,
        formattedData_noNl_of_not_str _ (fun s hs => PyVal.noConfusion hs)⟩,
     by decide, by decide, by decide⟩).2.1

/-- A descriptor whose names are newline-free but whose single catalog
shape is a top-level string smuggling a newline and a line that reads as a
function declaration.  Python `str` passes that string through raw. -/
def newlineDescriptor : Descriptor :=
  { typeinfos :=
      [("x", PyVal.strv "0\nexport function fake(): number \x7b return 0; \x7d")],
    game_event_types := [], message_event_types := [], tracker_event_types := [],
    game_eventid_typeid := 0, message_eventid_typeid := 1,
    tracker_eventid_typeid := 2, svaruint32_typeid := 7,
    replay_userid_typeid := 8, replay_header_typeid := 18,
    game_details_typeid := 40, replay_initdata_typeid := 73 }

/-- C8 counterexample: on `newlineDescriptor` — whose type name is the
benign `x` — the console-mode output, split into lines, contains a line
opening a function declaration, so the claim that console output contains
no accessor function declaration (and file output exactly four) is false
as stated over all descriptors. -/
theorem accessor_forgery_counterexample :
    (splitNl (convert_typeinfos_to_typescript newlineDescriptor).data).filter
        isAccessorSig
      = [("export function fake(): number \x7b return 0; \x7d \x7d, // 0" : String).data] := by
  decide

theorem joinNl_ends (M : List String) {L X Y : List String}
    (h : L = X ++ (M ++ Y)) :
    ∃ mid, joinNl L = joinNl X ++ mid ++ joinNl Y := by
  subst h
  refine ⟨joinNl M, ?_⟩
  rw [joinNl_append, joinNl_append, strAppend_assoc]

/-- C9.  Totality: both renderers are total functions producing a complete
document on every descriptor — including ones whose names carry quote
characters or whose shapes hold values with no TypeScript equivalent.  The
file output always runs from the full fixed header through the full
helper-function block; the console output from its header through the
eight constant lines; every catalog and table entry yields its line (none
is rejected); and neither path has any error outcome (both functions
return a `String`, not an `Option`). -/
theorem render_total_complete (d : Descriptor) :
    (∃ mid, generate_typescript_protocol_file d
        = joinNl fileHeadLines ++ mid ++ joinNl fileHelperLines) ∧
    (∃ mid, convert_typeinfos_to_typescript d
        = joinNl consoleHeadLines ++ mid ++ joinNl (constLines d)) ∧
    (catalogLines d.typeinfos).length = d.typeinfos.length ∧
    (tableLines d.game_event_types).length = d.game_event_types.length ∧
    (tableLines d.message_event_types).length = d.message_event_types.length ∧
    (tableLines d.tracker_event_types).length = d.tracker_event_types.length := by
  refine ⟨?_, ?_, by simp [catalogLines, List.enum], by simp [tableLines],
    by simp [tableLines], by simp [tableLines]⟩
  · rw [fileRender_eq_joinNl]
    exact joinNl_ends
      (catalogLines d.typeinfos ++ fileGameHeadLines
        ++ tableLines d.game_event_types ++ fileMessageHeadLines
        ++ tableLines d.message_event_types ++ fileTrackerHeadLines
        ++ tableLines d.tracker_event_types ++ ["\x7d;", ""] ++ constLines d)
      (by simp [fileLines, List.append_assoc])
  · exact joinNl_ends
      (catalogLines d.typeinfos ++ consoleGameHeadLines
        ++ tableLines d.game_event_types ++ consoleMessageHeadLines
        ++ tableLines d.message_event_types ++ consoleTrackerHeadLines
        ++ tableLines d.tracker_event_types ++ ["\x7d;", ""])
      (by simp [consoleLines, List.append_assoc])

/-! TypeScript-side companions: a string-literal parser (to state what a
TypeScript reader recovers from emitted text) and, following the spec's
literal-formatting policy, the literal rendering the policy asks for. -/

/-- Value of one escaped character in a TypeScript string literal. -/
def tsUnescape (c : Char) : Char :=
  if c.toNat = 110 then '\n'
  else if c.toNat = 116 then Char.ofNat 9
  else if c.toNat = 114 then Char.ofNat 13
  else if c.toNat = 48 then Char.ofNat 0
  else c

/-- Read TypeScript double-quoted string content up to the closing
delimiter, decoding backslash escapes; returns the content and the rest of
the input. -/
def tsStrAux : List Char → Option (List Char × List Char)
  | [] => Option.none
  | c :: cs =>
    if c = dquote then some ([], cs)
    else if c = backsl then
      match cs with
      | [] => Option.none
      | e :: cs2 => (tsStrAux cs2).map (fun pr => (tsUnescape e :: pr.1, pr.2))
    else (tsStrAux cs).map (fun pr => (c :: pr.1, pr.2))

/-- Parse a TypeScript double-quoted string literal at the head of the
input, by TypeScript's own rules. -/
def tsParseString (cs : List Char) : Option (String × List Char) :=
  match cs with
  | c :: rest =>
      if c = dquote then (tsStrAux rest).map (fun pr => (⟨pr.1⟩, pr.2))
      else Option.none
  | [] => Option.none

/-- TypeScript escaping of one character inside a double-quoted literal. -/
def tsEscChar (c : Char) : List Char :=
  if c = backsl then [backsl, backsl]
  else if c = dquote then [backsl, dquote]
  else if c.toNat = 10 then [backsl, Char.ofNat 110]
  else if c.toNat = 13 then [backsl, Char.ofNat 114]
  else if c.toNat = 9 then [backsl, Char.ofNat 116]
  else [c]

/-- A TypeScript double-quoted string literal for the given content. -/
def tsStrLit (s : String) : String :=
  ⟨dquote :: (s.data.map tsEscChar).flatten ++ [dquote]⟩

mutual
/-- Modelled from the spec: the literal-formatting policy of §4 — ordered
sequences (Python lists and tuples alike) become array literals, key/value
associations become object literals, text becomes a TypeScript string
literal under TypeScript's quoting and escaping rules, integers become
bare numerals; a value of any other kind has no target-language literal
and formatting fails. -/
def tsLiteral : PyVal → Option String
  | .intv n => some (intStr n)
  | .strv s => some (tsStrLit s)
  | .nonev => Option.none
  | .listv xs => (tsLiteralList xs).map (fun body => "[" ++ body ++ "]")
  | .tuplev xs => (tsLiteralList xs).map (fun body => "[" ++ body ++ "]")
  | .dictv ps => (tsLiteralPairs ps).map (fun body => "\x7b" ++ body ++ "\x7d")
/-- Comma-space separated renderings of an ordered sequence body. -/
def tsLiteralList : PyValList → Option String
  | .nil => some ("")
  | .cons x .nil => tsLiteral x
  | .cons x rest =>
    match tsLiteral x, tsLiteralList rest with
    | some a, some b => some (a ++ ", " ++ b)
    | _, _ => Option.none
/-- Comma-space separated `key: value` renderings of an association
body. -/
def tsLiteralPairs : PyPairList → Option String
  | .nil => some ("")
  | .cons k v .nil =>
    match tsLiteral k, tsLiteral v with
    | some a, some b => some (a ++ ": " ++ b)
    | _, _ => Option.none
  | .cons k v rest =>
    match tsLiteral k, tsLiteral v, tsLiteralPairs rest with
    | some a, some b, some c => some (a ++ ": " ++ b ++ ", " ++ c)
    | _, _, _ => Option.none
end

theorem mem_consoleLines_of_mem_catalog (d : Descriptor) {l : String}
    (h : l ∈ catalogLines d.typeinfos) : l ∈ consoleLines d := by
  unfold consoleLines
  simp only [List.mem_append]
  tauto

theorem mem_fileLines_of_mem_catalog (d : Descriptor) {l : String}
    (h : l ∈ catalogLines d.typeinfos) : l ∈ fileLines d := by
  unfold fileLines
  simp only [List.mem_append]
  tauto

/-- A type name holding an embedded double quote — the delimiter TypeScript
uses for the emitted string literals. -/
def quoteName : String := "a\"b"

/-- Descriptor whose single catalog entry carries `quoteName`. -/
def quoteDescriptor : Descriptor :=
  { typeinfos := [(quoteName, PyVal.listv PyValList.nil)],
    game_event_types := [], message_event_types := [], tracker_event_types := [],
    game_eventid_typeid := 0, message_eventid_typeid := 1,
    tracker_eventid_typeid := 2, svaruint32_typeid := 7,
    replay_userid_typeid := 8, replay_header_typeid := 18,
    game_details_typeid := 40, replay_initdata_typeid := 73 }

/-- C1 evidence.  The name is interpolated into the emitted line with no
escaping, so both outputs contain `type: "a"b"`; a TypeScript parser
reading the string literal at that position stops at the embedded quote
and recovers `a`, not `a"b` — the round-trip the claim asserts fails.  A
correctly escaped literal (`tsStrLit`) would round-trip. -/
theorem quote_corruption_evidence :
    catalogEntryLine 0 (quoteName, PyVal.listv PyValList.nil)
      = "  \x7b type: \"a\"b\", data: [] \x7d, // 0" ∧
    ("  \x7b type: " : String) ++ "\"a\"b\", data: [] \x7d, // 0"
      = "  \x7b type: \"a\"b\", data: [] \x7d, // 0" ∧
    containsLine (convert_typeinfos_to_typescript quoteDescriptor)
      "  \x7b type: \"a\"b\", data: [] \x7d, // 0" ∧
    containsLine (generate_typescript_protocol_file quoteDescriptor)
      "  \x7b type: \"a\"b\", data: [] \x7d, // 0" ∧
    tsParseString ("\"a\"b\", data: [] \x7d, // 0" : String).data
      = some ("a", ('b' :: ("\", data: [] \x7d, // 0" : String).data)) ∧
    ("a" : String) ≠ quoteName ∧
    tsParseString (tsStrLit quoteName).data = some (quoteName, []) := by
  have hfd : formattedData (PyVal.listv PyValList.nil) = "[]" := by
    simp [formattedData, pyStr, pyRepr, pyReprList, replaceQuotes]
    decide
  have hline : catalogEntryLine 0 (quoteName, PyVal.listv PyValList.nil)
      = "  \x7b type: \"a\"b\", data: [] \x7d, // 0" := by
    unfold catalogEntryLine
    rw [hfd]
    decide
  have hcat : catalogEntryLine 0 (quoteName, PyVal.listv PyValList.nil)
      ∈ catalogLines quoteDescriptor.typeinfos := by
    simp [catalogLines, List.enum, List.enumFrom]
  refine ⟨hline, by decide, ?_, ?_, by decide, by decide, by decide⟩
  · rw [← hline]
    exact mem_joinNl (mem_consoleLines_of_mem_catalog quoteDescriptor hcat)
  · rw [← hline, fileRender_eq_joinNl]
    exact mem_joinNl (mem_fileLines_of_mem_catalog quoteDescriptor hcat)

/-- A shape holding the Python tuple `(0, 7)` inside a list, as protocol
`typeinfos` shapes do. -/
def tupleShape : PyVal :=
  PyVal.listv (PyValList.cons
    (PyVal.tuplev (PyValList.cons (PyVal.intv 0)
      (PyValList.cons (PyVal.intv 7) PyValList.nil))) PyValList.nil)

/-- Descriptor whose single catalog entry carries `tupleShape`. -/
def tupleDescriptor : Descriptor :=
  { typeinfos := [("x", tupleShape)],
    game_event_types := [], message_event_types := [], tracker_event_types := [],
    game_eventid_typeid := 0, message_eventid_typeid := 1,
    tracker_eventid_typeid := 2, svaruint32_typeid := 7,
    replay_userid_typeid := 8, replay_header_typeid := 18,
    game_details_typeid := 40, replay_initdata_typeid := 73 }

/-- C2 evidence.  A tuple in the shape is emitted in Python's parenthesized
tuple syntax, `(0, 7)`, not as the array literal `[0, 7]` that the spec's
literal-formatting policy (embedded as `tsLiteral`) prescribes; the
divergent text reaches both outputs. -/
theorem tuple_not_array_literal :
    formattedData tupleShape = "[(0, 7)]" ∧
    tsLiteral tupleShape = some ("[[0, 7]]") ∧
    ("[(0, 7)]" : String) ≠ "[[0, 7]]" ∧
    containsLine (convert_typeinfos_to_typescript tupleDescriptor)
      "  \x7b type: \"x\", data: [(0, 7)] \x7d, // 0" ∧
    containsLine (generate_typescript_protocol_file tupleDescriptor)
      "  \x7b type: \"x\", data: [(0, 7)] \x7d, // 0" := by
  have hfd : formattedData tupleShape = "[(0, 7)]" := by
    simp [tupleShape, formattedData, pyStr, pyRepr, pyReprList, replaceQuotes,
      intStr, natStr, natCharsAux]
    decide
  have hline : catalogEntryLine 0 ("x", tupleShape)
      = "  \x7b type: \"x\", data: [(0, 7)] \x7d, // 0" := by
    unfold catalogEntryLine
    rw [hfd]
    decide
  have hcat : catalogEntryLine 0 ("x", tupleShape)
      ∈ catalogLines tupleDescriptor.typeinfos := by
    simp [catalogLines, List.enum, List.enumFrom]
  refine ⟨hfd, ?_, by decide, ?_, ?_⟩
  · simp [tupleShape, tsLiteral, tsLiteralList, intStr, natStr, natCharsAux]
  · rw [← hline]
    exact mem_joinNl (mem_consoleLines_of_mem_catalog tupleDescriptor hcat)
  · rw [← hline, fileRender_eq_joinNl]
    exact mem_joinNl (mem_fileLines_of_mem_catalog tupleDescriptor hcat)

/-- Descriptor whose single catalog entry carries a value the formatter
policy does not recognize (`None`). -/
def noneDescriptor : Descriptor :=
  { typeinfos := [("x", PyVal.nonev)],
    game_event_types := [], message_event_types := [], tracker_event_types := [],
    game_eventid_typeid := 0, message_eventid_typeid := 1,
    tracker_eventid_typeid := 2, svaruint32_typeid := 7,
    replay_userid_typeid := 8, replay_header_typeid := 18,
    game_details_typeid := 40, replay_initdata_typeid := 73 }

/-- C3 evidence.  `None` has no target-language literal (`tsLiteral`
fails on it), yet rendering does not abort: both outputs are produced in
full, the offending entry included — the file output still runs from its
complete header through its complete helper block, directly contradicting
"aborts with no output written". -/
theorem no_abort_on_unrenderable :
    tsLiteral PyVal.nonev = Option.none ∧
    formattedData PyVal.nonev = "None" ∧
    containsLine (convert_typeinfos_to_typescript noneDescriptor)
      "  \x7b type: \"x\", data: None \x7d, // 0" ∧
    containsLine (generate_typescript_protocol_file noneDescriptor)
      "  \x7b type: \"x\", data: None \x7d, // 0" ∧
    (∃ mid, generate_typescript_protocol_file noneDescriptor
        = joinNl fileHeadLines ++ mid ++ joinNl fileHelperLines) := by
  have hfd : formattedData PyVal.nonev = "None" := by
    simp [formattedData, pyStr, pyRepr, replaceQuotes]
    decide
  have hline : catalogEntryLine 0 ("x", PyVal.nonev)
      = "  \x7b type: \"x\", data: None \x7d, // 0" := by
    unfold catalogEntryLine
    rw [hfd]
    decide
  have hcat : catalogEntryLine 0 ("x", PyVal.nonev)
      ∈ catalogLines noneDescriptor.typeinfos := by
    simp [catalogLines, List.enum, List.enumFrom]
  refine ⟨by simp [tsLiteral], hfd, ?_, ?_, ?_⟩
  · rw [← hline]
    exact mem_joinNl (mem_consoleLines_of_mem_catalog noneDescriptor hcat)
  · rw [← hline, fileRender_eq_joinNl]
    exact mem_joinNl (mem_fileLines_of_mem_catalog noneDescriptor hcat)
  · rw [fileRender_eq_joinNl]
    exact joinNl_ends
      (catalogLines noneDescriptor.typeinfos ++ fileGameHeadLines
        ++ tableLines noneDescriptor.game_event_types ++ fileMessageHeadLines
        ++ tableLines noneDescriptor.message_event_types ++ fileTrackerHeadLines
        ++ tableLines noneDescriptor.tracker_event_types ++ ["\x7d;", ""]
        ++ constLines noneDescriptor)
      (by simp [fileLines, List.append_assoc])
